import Mathlib

/-!
Verification of the streamed multi-modal response assembler of this
repository and of the display / credential-resolution logic of
`src/app.py`.

The repository ships several near-duplicate UI scripts; only `src/app.py`
is present here.  The `assemble` library contract (Artifact persistence,
Transcript accumulation, media-type extension mapping) is described by the
specification but its deciding code is not under `src/`, so those
definitions are modelled from the words of the specification.  The display loop,
candidate selection and API-key resolution of `src/app.py` are embedded
directly from the source.
-/

namespace Spec2Proof

/-- Modelled from the spec: the assembler code of the repository is not under
`src/` (only the UI script `src/app.py` is).  An inline binary payload of a
response fragment: raw bytes plus the declared media-type string
(spec section 3, the `inlineData` of a ResponseFragment). -/
structure InlineData where
  mimeType : String
  data : List Nat
deriving DecidableEq

/-- Modelled from the spec: one unit of a streamed reply (spec section 3).
A fragment either lacks a well-formed response-candidate shape
(`malformed`: no candidate, no content parts - to be skipped), or carries
an optional inline binary payload and an optional text. -/
inductive ResponseFragment where
  | malformed : ResponseFragment
  | parts : Option InlineData → Option String → ResponseFragment
deriving DecidableEq

/-- Modelled from the spec: the deterministic media-type-to-extension
table (spec section 4.1, rule 2 and the error condition of section 4.1:
a media type with no known mapping is treated as
`application/octet-stream`, a generic binary suffix).  The testable
properties fix `image/png ↦ .png` and `image/jpeg ↦ .jpeg`. -/
def extensionFor (mime : String) : String :=
  if mime = "image/png" then ".png"
  else if mime = "image/jpeg" then ".jpeg"
  else if mime = "image/gif" then ".gif"
  else if mime = "image/webp" then ".webp"
  else ".bin"

/-- The media types with a known extension mapping in `extensionFor`. -/
def knownMimeTypes : List String :=
  ["image/png", "image/jpeg", "image/gif", "image/webp"]

/-- Modelled from the spec: the single persisted binary result of an
assembly call - a file name (base + extension derived from the declared
media type) and the raw bytes (spec section 3, Artifact). -/
structure Artifact where
  fileName : String
  bytes : List Nat
deriving DecidableEq

/-- Modelled from the spec: the accumulators of one `assemble` call -
the optional Artifact, the Transcript, and the trace of filesystem writes
performed (file name and bytes of each write), used to state the
side-effect contract of spec section 4.1. -/
structure AssembleState where
  artifact : Option Artifact
  transcript : String
  writes : List (String × List Nat)
deriving DecidableEq

/-- Modelled from the spec: the per-fragment processing rule of spec
section 4.1 - (1) skip a malformed fragment; (2) a fragment carrying
inline binary data creates the Artifact and persists its bytes exactly
once, the first occurrence observed, subsequent binary fragments being
ignored once an Artifact is recorded; (3) else non-empty text is appended
to the Transcript; (4) fragments matching neither case are skipped. -/
def stepFragment (baseName : String) (st : AssembleState)
    (f : ResponseFragment) : AssembleState :=
  match f with
  | .malformed => st
  | .parts inlineData text =>
    match inlineData with
    | some d =>
      match st.artifact with
      | some _ => st
      | none =>
        let name := baseName ++ extensionFor d.mimeType
        { st with artifact := some ⟨name, d.data⟩
                  writes := st.writes ++ [(name, d.data)] }
    | none =>
      match text with
      | some t => if t = "" then st else { st with transcript := st.transcript ++ t }
      | none => st

/-- Modelled from the spec: `assemble(fragments, baseName)` (spec section
4.1) processes the finite fragment sequence in order, one fragment at a
time, starting from empty accumulators, and returns the accumulated state
when the sequence ends. -/
def assemble (fragments : List ResponseFragment) (baseName : String) :
    AssembleState :=
  fragments.foldl (stepFragment baseName) ⟨none, "", []⟩

/-- A fragment carrying inline binary data. -/
def isBinary : ResponseFragment → Bool
  | .parts (some _) _ => true
  | _ => false

/-- The text contribution of one fragment to the Transcript: the text of a
text fragment, empty otherwise. -/
def fragText : ResponseFragment → String
  | .parts none (some t) => t
  | _ => ""

/-- The concatenation of the text of the text fragments, in stream
order. -/
def textConcat (fragments : List ResponseFragment) : String :=
  fragments.foldl (fun acc f => acc ++ fragText f) ""

/-- Modelled from the spec: the error taxonomy of spec section 7.
`transportError` - the upstream stream failed or the service reported a
content-safety block, carrying the upstream message verbatim;
`persistenceError` - a local write failed, carrying the attempted file
name. -/
inductive AssembleError where
  | transportError : String → AssembleError
  | persistenceError : String → String → AssembleError
deriving DecidableEq

/-- Modelled from the spec: the outcome of the upstream generation call
(spec sections 4.1 and 7): either a finite fragment sequence, or an
abnormal termination of the stream carrying a message, or a content-safety
block reported by the service. -/
inductive UpstreamResult where
  | ok : List ResponseFragment → UpstreamResult
  | failed : String → UpstreamResult
  | safetyBlocked : String → UpstreamResult
deriving DecidableEq

/-- Modelled from the spec: `assemble` driven by the upstream outcome.  An
abnormal upstream termination or a reported content-safety block is
propagated to the caller as a `transportError` carrying the upstream
message verbatim - never swallowed, retried or converted (spec sections
4.1 error conditions and 7). -/
def assembleFrom (upstream : UpstreamResult) (baseName : String) :
    Except AssembleError AssembleState :=
  match upstream with
  | .ok fragments => .ok (assemble fragments baseName)
  | .failed msg => .error (.transportError msg)
  | .safetyBlocked msg => .error (.transportError msg)

/-- `part.inline_data` of `src/app.py`: `mime_type` and an optional base64
`data` string (`hasattr(part.inline_data, "data")` failing is modelled by
`data = none`; a falsy empty string is kept as `some ""`). -/
structure InlinePart where
  mime_type : String
  data : Option String
deriving DecidableEq

/-- One content part of a response candidate in `src/app.py`: an optional
truthy `inline_data` and an optional `text` string (absence of the
attribute or a falsy value is modelled by `none`; the empty string is a
falsy `some ""`). -/
structure Part where
  inline_data : Option InlinePart
  text : Option String
deriving DecidableEq

/-- `candidate.content` of `src/app.py`: its list of parts
(`hasattr(candidate.content, "parts")` holds whenever the content
attribute itself is present). -/
structure Content where
  parts : List Part
deriving DecidableEq

/-- One response candidate in `src/app.py`: optional `finish_reason`,
optional `safety_ratings` (rendered as a string), optional `content`. -/
structure Candidate where
  finish_reason : Option String
  safety_ratings : Option String
  content : Option Content
deriving DecidableEq

/-- The generated response held in `st.session_state.generated_content` of
`src/app.py`: the list of candidates, the optional response-level `text`
attribute, and the optional `prompt_feedback`. -/
structure Response where
  candidates : List Candidate
  text : Option String
  prompt_feedback : Option String
deriving DecidableEq

/-- One UI output emitted by the display section of `src/app.py`
(lines 102-152), carrying the data it renders.  `i` is the 0-based loop
index (the captions show `i+1`). -/
inductive Event where
  | image : Nat → String → Event
  | warnNoData : Nat → Event
  | warnDecode : Nat → String → Event
  | textPart : Nat → String → Event
  | unknownPart : Nat → Part → Event
  | safetyWarning : Option String → Event
  | plainText : String → Event
  | rawDump : Response → Event
  | noCandidates : Option String → Event
deriving DecidableEq

/-- The body of the `for i, part in enumerate(candidate.content.parts)`
loop of `src/app.py` (lines 116-136) for one part.  `decodeImage` models
the external `base64.b64decode` + `Image.open` pipeline: `.ok` is the
decoded image (rendered by `st.image`), `.error` the exception message
caught by `except Exception as img_e` (rendered by `st.warning`). -/
def renderPart (decodeImage : String → Except String String) (i : Nat)
    (p : Part) : List Event :=
  match p.inline_data with
  | some d =>
    match d.data with
    | some s =>
      if s = "" then [.warnNoData i]
      else
        match decodeImage s with
        | .ok img => [.image i img]
        | .error e => [.warnDecode i e]
    | none => [.warnNoData i]
  | none =>
    match p.text with
    | some t => if t = "" then [.unknownPart i p] else [.textPart i t]
    | none => [.unknownPart i p]

/-- The whole enumerate loop of `src/app.py` lines 116-136, started at
loop index `i`: the outputs of each part in order. -/
def renderParts (decodeImage : String → Except String String) :
    Nat → List Part → List Event
  | _, [] => []
  | i, p :: ps => renderPart decodeImage i p ++ renderParts decodeImage (i + 1) ps

/-- The display section of `src/app.py` (lines 108-152) for a stored
response: no candidates warns with the prompt feedback; otherwise the
first candidate is taken; a candidate whose `finish_reason` equals SAFETY warns
with the safety ratings; a candidate with content parts runs the part
loop; else a truthy response-level `text` is written; else the raw
response is dumped for debugging via `st.json(... .to_dict())`. -/
def renderResponse (decodeImage : String → Except String String)
    (r : Response) : List Event :=
  match r.candidates with
  | [] => [.noCandidates r.prompt_feedback]
  | c :: _ =>
    if c.finish_reason = some "SAFETY" then
      [.safetyWarning c.safety_ratings]
    else
      match c.content with
      | some content => renderParts decodeImage 0 content.parts
      | none =>
        match r.text with
        | some t => if t = "" then [.rawDump r] else [.plainText t]
        | none => [.rawDump r]

/-- Python's `a or b` over optional strings, where `None` and the empty
string are falsy (`src/app.py` line 32). -/
def orPy (a b : Option String) : Option String :=
  match a with
  | some s => if s = "" then b else some s
  | none => b

/-- `src/app.py` line 32:
`google_api_key = api_key or st.secrets.get("GOOGLE_API_KEY") or
os.environ.get("GOOGLE_API_KEY")`.  `apiKey` is the text-input value (the
empty string when nothing was entered); the secrets store and the
environment yield `none` when the key is absent. -/
def resolveKey (apiKey : String) (secretsKey envKey : Option String) :
    Option String :=
  orPy (some apiKey) (orPy secretsKey envKey)

/-- The outcome of the generate-button handler of `src/app.py`. -/
inductive GenOutcome where
  | idle : GenOutcome
  | warnNoKey : GenOutcome
  | request : String → String → GenOutcome
  | warnNoPrompt : GenOutcome
deriving DecidableEq

/-- `src/app.py` lines 63-98 and 165-166: when the button is pressed with
a truthy prompt, a falsy resolved key warns and makes no request;
otherwise the generation request is issued with the resolved key and the
prompt.  A button press without a prompt only warns. -/
def generateAction (buttonPressed : Bool) (prompt : String)
    (googleApiKey : Option String) : GenOutcome :=
  if buttonPressed ∧ prompt ≠ "" then
    match googleApiKey with
    | none => .warnNoKey
    | some k => if k = "" then .warnNoKey else .request k prompt
  else if buttonPressed ∧ prompt = "" then .warnNoPrompt
  else .idle

/-! ## Helper lemmas about the assembler -/

/-- One assembler step never changes the transcript except by appending the
fragment's text contribution. -/
theorem stepFragment_transcript (b : String) (st : AssembleState)
    (f : ResponseFragment) :
    (stepFragment b st f).transcript = st.transcript ++ fragText f := by
  cases f with
  | malformed => simp [stepFragment, fragText]
  | parts d t =>
    cases d with
    | some d' =>
      cases h : st.artifact <;> simp [stepFragment, fragText, h]
    | none =>
      cases t with
      | some t' =>
        by_cases ht : t' = "" <;> simp [stepFragment, fragText, ht]
      | none => simp [stepFragment, fragText]

/-- The transcript accumulated by folding the assembler step is the fold of
the per-fragment text contributions. -/
theorem foldl_stepFragment_transcript (b : String)
    (fs : List ResponseFragment) (st : AssembleState) :
    (List.foldl (stepFragment b) st fs).transcript =
      List.foldl (fun acc f => acc ++ fragText f) st.transcript fs := by
  induction fs generalizing st with
  | nil => rfl
  | cons f fs ih =>
    simp only [List.foldl_cons]
    rw [ih, stepFragment_transcript]

/-- Once the artifact slot is filled, no later fragment changes it. -/
theorem stepFragment_artifact_some (b : String) (st : AssembleState)
    (f : ResponseFragment) (a : Artifact) (h : st.artifact = some a) :
    (stepFragment b st f).artifact = some a := by
  cases f with
  | malformed => simpa [stepFragment] using h
  | parts d t =>
    cases d with
    | some d' => simp [stepFragment, h]
    | none =>
      cases t with
      | some t' =>
        by_cases ht : t' = "" <;> simp [stepFragment, ht, h]
      | none => simpa [stepFragment] using h

/-- Once the artifact slot is filled, folding more fragments keeps it. -/
theorem foldl_stepFragment_artifact_some (b : String)
    (fs : List ResponseFragment) (st : AssembleState) (a : Artifact)
    (h : st.artifact = some a) :
    (List.foldl (stepFragment b) st fs).artifact = some a := by
  induction fs generalizing st with
  | nil => simpa using h
  | cons f fs ih =>
    simp only [List.foldl_cons]
    exact ih _ (stepFragment_artifact_some b st f a h)

/-- A non-binary fragment leaves the artifact slot and the write trace
unchanged. -/
theorem stepFragment_nonbinary (b : String) (st : AssembleState)
    (f : ResponseFragment) (h : isBinary f = false) :
    (stepFragment b st f).artifact = st.artifact ∧
      (stepFragment b st f).writes = st.writes := by
  cases f with
  | malformed => simp [stepFragment]
  | parts d t =>
    cases d with
    | some d' => simp [isBinary] at h
    | none =>
      cases t with
      | some t' =>
        by_cases ht : t' = "" <;> simp [stepFragment, ht]
      | none => simp [stepFragment]

/-- Folding non-binary fragments leaves the artifact slot and the write
trace unchanged. -/
theorem foldl_stepFragment_nonbinary (b : String)
    (fs : List ResponseFragment) (st : AssembleState)
    (h : ∀ f ∈ fs, isBinary f = false) :
    (List.foldl (stepFragment b) st fs).artifact = st.artifact ∧
      (List.foldl (stepFragment b) st fs).writes = st.writes := by
  induction fs generalizing st with
  | nil => simp
  | cons f fs ih =>
    simp only [List.foldl_cons]
    have hf := stepFragment_nonbinary b st f (h f (by simp))
    have := ih (stepFragment b st f) (fun g hg => h g (by simp [hg]))
    exact ⟨by rw [this.1, hf.1], by rw [this.2, hf.2]⟩

/-! ## Claim theorems -/

/-- Claim C2: for every fragment sequence, the Transcript produced by the
assembler equals the concatenation of the text of the text fragments in
stream order, with no separators or labels inserted. -/
theorem c2_transcript_is_text_concat (fs : List ResponseFragment)
    (b : String) :
    (assemble fs b).transcript = textConcat fs := by
  unfold assemble textConcat
  rw [foldl_stepFragment_transcript]

/-- Claim C3: an abnormal upstream termination and a content-safety block
reported by the service are both propagated by the assembler to the caller
as a `transportError` carrying the upstream message verbatim - never
swallowed or converted into a silently-handled success state. -/
theorem c3_upstream_failure_propagates (msg b : String) :
    assembleFrom (.failed msg) b = .error (.transportError msg) ∧
      assembleFrom (.safetyBlocked msg) b = .error (.transportError msg) ∧
      ∀ st, assembleFrom (.failed msg) b ≠ .ok st :=
  ⟨rfl, rfl, fun _ h => by simp [assembleFrom] at h⟩

/-- Claim C6: a fragment sequence consisting only of malformed fragments,
and in particular the empty sequence, assembles to no Artifact, an empty
Transcript and no filesystem write, without any error. -/
theorem c6_malformed_only_yields_empty (fs : List ResponseFragment)
    (b : String) (h : ∀ f ∈ fs, f = .malformed) :
    assemble fs b = ⟨none, "", []⟩ := by
  unfold assemble
  induction fs with
  | nil => rfl
  | cons f fs ih =>
    have hf : f = .malformed := h f (by simp)
    simp only [List.foldl_cons, hf, stepFragment]
    exact ih (fun g hg => h g (by simp [hg]))

/-- Witness for C6: a two-malformed-fragment sequence and the empty
sequence both assemble to the empty result. -/
theorem c6_malformed_only_yields_empty_witness :
    assemble [.malformed, .malformed] "x" = ⟨none, "", []⟩ ∧
      assemble [] "x" = ⟨none, "", []⟩ :=
  ⟨c6_malformed_only_yields_empty [.malformed, .malformed] "x" (by simp),
   c6_malformed_only_yields_empty [] "x" (by simp)⟩

/-- Claim C7: the assembler consumes exactly the finite input sequence -
it starts from the empty accumulators, processes the last fragment of the
sequence as its final step, and returns the accumulated state when the
sequence ends; it is a total function of the finite input, so it never
waits for fragments beyond those provided. -/
theorem c7_terminates_at_end_of_input (fs : List ResponseFragment)
    (f : ResponseFragment) (b : String) :
    assemble [] b = ⟨none, "", []⟩ ∧
      assemble (fs ++ [f]) b = stepFragment b (assemble fs b) f := by
  refine ⟨rfl, ?_⟩
  unfold assemble
  rw [List.foldl_append]
  rfl

/-- Claim C1: in a fragment sequence whose first binary fragment carries
inline data `d` (any fragments before it being non-binary, any fragments
after it arbitrary - in particular further binary fragments), the
Artifact of the assembler is exactly `baseName + extension` with the bytes of
`d`: the first binary fragment is kept and every subsequent binary
fragment is ignored, neither preserved nor overwriting the Artifact. -/
theorem c1_first_binary_fragment_is_artifact (pre rest : List ResponseFragment)
    (d : InlineData) (t : Option String) (b : String)
    (h : ∀ f ∈ pre, isBinary f = false) :
    (assemble (pre ++ .parts (some d) t :: rest) b).artifact =
      some ⟨b ++ extensionFor d.mimeType, d.data⟩ := by
  unfold assemble
  rw [List.foldl_append]
  have hnone : (List.foldl (stepFragment b) ⟨none, "", []⟩ pre).artifact = none :=
    (foldl_stepFragment_nonbinary b pre ⟨none, "", []⟩ h).1
  simp only [List.foldl_cons]
  apply foldl_stepFragment_artifact_some
  simp [stepFragment, hnone]

/-- Witness for C1: the two-jpeg scenario of the spec - the Artifact is
`x.jpeg` with the bytes of the first fragment; the second is ignored. -/
theorem c1_first_binary_fragment_is_artifact_witness :
    (assemble [.parts (some ⟨"image/jpeg", [1]⟩) none,
               .parts (some ⟨"image/jpeg", [2]⟩) none] "x").artifact =
      some ⟨"x.jpeg", [1]⟩ :=
  c1_first_binary_fragment_is_artifact []
    [.parts (some ⟨"image/jpeg", [2]⟩) none] ⟨"image/jpeg", [1]⟩ none "x"
    (by simp)

/-- The artifact / write-trace correspondence maintained by the
assembler: either no Artifact and no write yet, or an Artifact named
`baseName + extension` whose bytes were written exactly once. -/
def WritesInv (b : String) (st : AssembleState) : Prop :=
  (st.artifact = none ∧ st.writes = []) ∨
    ∃ a mime, st.artifact = some a ∧ a.fileName = b ++ extensionFor mime ∧
      st.writes = [(a.fileName, a.bytes)]

/-- One assembler step preserves the artifact / write-trace
correspondence. -/
theorem stepFragment_writesInv (b : String) (st : AssembleState)
    (f : ResponseFragment) (h : WritesInv b st) :
    WritesInv b (stepFragment b st f) := by
  cases f with
  | malformed => simpa [stepFragment] using h
  | parts d t =>
    cases d with
    | some d' =>
      rcases h with ⟨h1, h2⟩ | ⟨a, mime, h1, h2, h3⟩
      · right
        refine ⟨⟨b ++ extensionFor d'.mimeType, d'.data⟩, d'.mimeType, ?_, rfl, ?_⟩
        · simp [stepFragment, h1]
        · simp [stepFragment, h1, h2]
      · have hst : stepFragment b st (.parts (some d') t) = st := by
          simp [stepFragment, h1]
        rw [hst]
        exact Or.inr ⟨a, mime, h1, h2, h3⟩
    | none =>
      have hnb : isBinary (ResponseFragment.parts none t) = false := by
        simp [isBinary]
      have he := stepFragment_nonbinary b st (.parts none t) hnb
      rcases h with ⟨h1, h2⟩ | ⟨a, mime, h1, h2, h3⟩
      · exact Or.inl ⟨he.1.trans h1, he.2.trans h2⟩
      · exact Or.inr ⟨a, mime, he.1.trans h1, h2, he.2.trans h3⟩

/-- Folding the assembler step preserves the artifact / write-trace
correspondence. -/
theorem foldl_stepFragment_writesInv (b : String)
    (fs : List ResponseFragment) (st : AssembleState) (h : WritesInv b st) :
    WritesInv b (List.foldl (stepFragment b) st fs) := by
  induction fs generalizing st with
  | nil => simpa using h
  | cons f fs ih =>
    simp only [List.foldl_cons]
    exact ih _ (stepFragment_writesInv b st f h)

/-- Claim C4: an invocation of the assembler produces either no Artifact
and an empty write trace, or an Artifact named `baseName + extension`
together with exactly one filesystem write - of the bytes of the Artifact
under its file name; no other write occurs. -/
theorem c4_exactly_one_write_when_artifact (fs : List ResponseFragment)
    (b : String) :
    ((assemble fs b).artifact = none ∧ (assemble fs b).writes = []) ∨
      ∃ a mime, (assemble fs b).artifact = some a ∧
        a.fileName = b ++ extensionFor mime ∧
        (assemble fs b).writes = [(a.fileName, a.bytes)] :=
  foldl_stepFragment_writesInv b fs ⟨none, "", []⟩ (Or.inl ⟨rfl, rfl⟩)

/-- Claim C5: a declared media type outside the known extension table gets
the `application/octet-stream` fallback extension, and the assembly still
succeeds with Artifact name `baseName + fallback`; a known `image/png`
fragment yields an Artifact name ending in `.png`. -/
theorem c5_unknown_mime_falls_back (mime b : String) (bytes : List Nat)
    (h : mime ∉ knownMimeTypes) :
    extensionFor mime = extensionFor "application/octet-stream" ∧
      (assemble [.parts (some ⟨mime, bytes⟩) none] b).artifact =
        some ⟨b ++ extensionFor "application/octet-stream", bytes⟩ ∧
      (assemble [.parts (some ⟨"image/png", bytes⟩) none] b).artifact =
        some ⟨b ++ ".png", bytes⟩ := by
  simp only [knownMimeTypes, List.mem_cons, List.not_mem_nil, or_false,
    not_or] at h
  obtain ⟨h1, h2, h3, h4⟩ := h
  have he : extensionFor mime = ".bin" := by
    simp [extensionFor, h1, h2, h3, h4]
  refine ⟨by rw [he]; rfl, ?_, ?_⟩
  · show (stepFragment b ⟨none, "", []⟩ (.parts (some ⟨mime, bytes⟩) none)).artifact = _
    simp [stepFragment, he]
    rfl
  · show (stepFragment b ⟨none, "", []⟩
      (.parts (some ⟨"image/png", bytes⟩) none)).artifact = _
    simp [stepFragment, extensionFor]

/-- Witness for C5: `application/x-custom` falls back to the default
extension and `image/png` yields `.png`. -/
theorem c5_unknown_mime_falls_back_witness :
    extensionFor "application/x-custom" = extensionFor "application/octet-stream" ∧
      (assemble [.parts (some ⟨"application/x-custom", [7]⟩) none] "x").artifact =
        some ⟨"x" ++ extensionFor "application/octet-stream", [7]⟩ ∧
      (assemble [.parts (some ⟨"image/png", [7]⟩) none] "x").artifact =
        some ⟨"x.png", [7]⟩ :=
  c5_unknown_mime_falls_back "application/x-custom" "x" [7] (by decide)

/-- A decode oracle under which every payload decodes successfully to
itself. -/
def decodeOk : String → Except String String := fun s => .ok s

/-- A decode oracle under which every payload fails with a fixed
message. -/
def decodeFail : String → Except String String := fun _ => .error "bad payload"

/-- A candidate with no finish reason, no ratings and no content. -/
def emptyCandidate : Candidate := ⟨none, none, none⟩

/-- A candidate whose content carries one text part. -/
def hiddenCandidate : Candidate := ⟨none, none, some ⟨[⟨none, some "hidden"⟩]⟩⟩

/-- A response whose first candidate is empty and whose second candidate
carries text. -/
def twoCandResponse : Response := ⟨[emptyCandidate, hiddenCandidate], none, none⟩

/-- `twoCandResponse` with the later candidate removed. -/
def oneCandResponse : Response := ⟨[emptyCandidate], none, none⟩

/-- Counterexample to C8: when the first candidate has neither a SAFETY
finish reason nor content parts and the response has no usable text, the
code dumps the raw response - which carries the later candidates - so the
output is not a function of the first candidate alone: removing the second
candidate changes what is rendered. -/
theorem c8_later_candidates_leak_in_raw_dump :
    renderResponse decodeOk twoCandResponse = [.rawDump twoCandResponse] ∧
      renderResponse decodeOk twoCandResponse ≠
        renderResponse decodeOk oneCandResponse := by
  constructor
  · rfl
  · decide

/-- Claim C8 as amended: whenever the first candidate is safety-blocked,
or has a content attribute, or the response carries non-empty
response-level text, the rendered output depends only on that first
candidate and the response-level fields - every later candidate is
ignored; only in the remaining debug-fallback branch (first candidate
without content and no usable response-level text) is the raw response,
later candidates included, dumped. -/
theorem c8_first_candidate_only (deco : String → Except String String)
    (r : Response) (c : Candidate) (rest : List Candidate)
    (hc : r.candidates = c :: rest)
    (h : c.finish_reason = some "SAFETY" ∨ c.content.isSome = true ∨
      ∃ t, r.text = some t ∧ t ≠ "") :
    renderResponse deco r = renderResponse deco ⟨[c], r.text, r.prompt_feedback⟩ := by
  obtain ⟨cands, rtext, rpf⟩ := r
  simp only at hc h
  subst hc
  by_cases hs : c.finish_reason = some "SAFETY"
  · simp [renderResponse, hs]
  · cases hct : c.content with
    | some ct => simp [renderResponse, hs, hct]
    | none =>
      rcases h with h | h | ⟨t, ht, hne⟩
      · exact absurd h hs
      · rw [hct] at h
        simp at h
      · subst ht
        simp [renderResponse, hs, hct, hne]

/-- Witness for the amended C8: a response whose first candidate carries
content parts, and a response with an empty first candidate but non-empty
response-level text, each render the same with and without the second
candidate. -/
theorem c8_first_candidate_only_witness :
    (renderResponse decodeOk ⟨[hiddenCandidate, emptyCandidate], none, none⟩ =
        renderResponse decodeOk ⟨[hiddenCandidate], none, none⟩) ∧
      renderResponse decodeOk ⟨[emptyCandidate, hiddenCandidate], some "plain", none⟩ =
        renderResponse decodeOk ⟨[emptyCandidate], some "plain", none⟩ :=
  ⟨c8_first_candidate_only decodeOk ⟨[hiddenCandidate, emptyCandidate], none, none⟩
      hiddenCandidate [emptyCandidate] rfl (Or.inr (Or.inl rfl)),
   c8_first_candidate_only decodeOk ⟨[emptyCandidate, hiddenCandidate], some "plain", none⟩
      emptyCandidate [hiddenCandidate] rfl
      (Or.inr (Or.inr ⟨"plain", rfl, by decide⟩))⟩

/-- The part loop distributes over an appended parts list, the second half
starting at the shifted loop index. -/
theorem renderParts_append (deco : String → Except String String)
    (xs ys : List Part) (i : Nat) :
    renderParts deco i (xs ++ ys) =
      renderParts deco i xs ++ renderParts deco (i + xs.length) ys := by
  induction xs generalizing i with
  | nil => simp [renderParts]
  | cons x xs ih =>
    have hn : i + 1 + xs.length = i + (x :: xs).length := by
      simp only [List.length_cons]
      omega
    calc renderParts deco i ((x :: xs) ++ ys)
        = renderPart deco i x ++ renderParts deco (i + 1) (xs ++ ys) := rfl
      _ = renderPart deco i x ++
            (renderParts deco (i + 1) xs ++ renderParts deco (i + 1 + xs.length) ys) := by
          rw [ih]
      _ = (renderPart deco i x ++ renderParts deco (i + 1) xs) ++
            renderParts deco (i + 1 + xs.length) ys := by
          rw [List.append_assoc]
      _ = renderParts deco i (x :: xs) ++ renderParts deco (i + (x :: xs).length) ys := by
          rw [hn]
          rfl

/-- Claim C9: a binary part whose decoding fails is reported with a
warning and skipped, and every part after it is still processed: the
rendered output is the output of the prefix, then the single warning, then the
normal output of the remaining parts. -/
theorem c9_failed_decode_reported_and_skipped
    (deco : String → Except String String) (pre post : List Part)
    (p : Part) (d : InlinePart) (s e : String)
    (hd : p.inline_data = some d) (hs : d.data = some s) (hne : s ≠ "")
    (hf : deco s = .error e) :
    renderParts deco 0 (pre ++ p :: post) =
      renderParts deco 0 pre ++
        Event.warnDecode pre.length e :: renderParts deco (pre.length + 1) post := by
  rw [show pre ++ p :: post = (pre ++ [p]) ++ post by simp,
    renderParts_append, renderParts_append]
  simp [renderParts, renderPart, hd, hs, hne, hf]

/-- Witness for C9: with a failing decoder, a text part, a broken image
part and a further text part render as text, warning, text. -/
theorem c9_failed_decode_reported_and_skipped_witness :
    renderParts decodeFail 0
        [⟨none, some "before"⟩, ⟨some ⟨"image/png", some "zz"⟩, none⟩,
         ⟨none, some "after"⟩] =
      [.textPart 0 "before", .warnDecode 1 "bad payload", .textPart 2 "after"] := by
  have h := c9_failed_decode_reported_and_skipped decodeFail
    [⟨none, some "before"⟩] [⟨none, some "after"⟩]
    ⟨some ⟨"image/png", some "zz"⟩, none⟩ ⟨"image/png", some "zz"⟩
    "zz" "bad payload" rfl rfl (by decide) rfl
  rw [show ([⟨none, some "before"⟩, ⟨some ⟨"image/png", some "zz"⟩, none⟩,
      ⟨none, some "after"⟩] : List Part) =
    [⟨none, some "before"⟩] ++ ⟨some ⟨"image/png", some "zz"⟩, none⟩ ::
      [⟨none, some "after"⟩] from rfl, h]
  rfl

/-- Claim C10: the API key is resolved with a fixed precedence - a
non-empty entered key wins, else a non-empty secrets-store key, else the
environment variable - and when all three are absent the button handler
only warns and issues no generation request. -/
theorem c10_key_resolution_precedence (k sk prompt : String)
    (s e : Option String) (hk : k ≠ "") (hsk : sk ≠ "") (hp : prompt ≠ "") :
    resolveKey k s e = some k ∧
      resolveKey "" (some sk) e = some sk ∧
      resolveKey "" (some "") e = e ∧
      resolveKey "" none e = e ∧
      generateAction true prompt (resolveKey "" none none) = .warnNoKey := by
  refine ⟨?_, ?_, ?_, ?_, ?_⟩ <;>
    simp [resolveKey, orPy, generateAction, hk, hsk, hp]

/-- Witness for C10: each precedence level at concrete keys, and the
no-key warning at a concrete prompt. -/
theorem c10_key_resolution_precedence_witness :
    resolveKey "typed" (some "sec") (some "env") = some "typed" ∧
      resolveKey "" (some "sec") (some "env") = some "sec" ∧
      resolveKey "" (some "") (some "env") = some "env" ∧
      resolveKey "" none (some "env") = some "env" ∧
      generateAction true "a cat" (resolveKey "" none none) = .warnNoKey :=
  c10_key_resolution_precedence "typed" "sec" "a cat" (some "sec") (some "env")
    (by decide) (by decide) (by decide)

end Spec2Proof
